import Mathlib

/-!
Shallow embedding of the `sub` command of `natscli` (`src/nats/sub_command.go`).

The Go function `(c *subCmd).subscribe` resolves a subject, opens a
connection, registers a per-message callback (`handler`) and blocks.  The
callback body runs entirely under one mutex, so concurrent deliveries are
serialized: a run of the subscription is faithfully modelled as a fold of the
callback over the list of messages in their arrival-processing order, with the
shared counter `i` threaded through explicitly.

External collaborators (the `nats.go` connection, `jsm.ParseJSMsgMetadata`,
`m.Respond`) are modelled as parameters: an `Env` record for the connection
level calls and two functions `parse` / `respondErr` for the per-message ones.
Side effects are recorded as explicit event / action traces.
-/

namespace NatsSub

/-- The `subCmd` receiver: one field per CLI flag of the `sub` command. -/
structure subCmd where
  subject : String
  queue : String
  raw : Bool
  jsAck : Bool
  inbox : Bool
deriving DecidableEq

/-- The part of `jsm.MsgInfo` read by the handler: `Stream()`, `Consumer()`,
`Delivered()`, `ConsumerSequence()`, `StreamSequence()`. -/
structure MsgInfo where
  stream : String
  consumer : String
  delivered : Nat
  consumerSeq : Nat
  streamSeq : Nat
deriving DecidableEq

/-- The part of `nats.Msg` read by the handler.  `header` lists the entries of
the Go map `nats.Header` (`map[string][]string`) in the order the `range` loop
of the handler visits them; Go leaves that key order unspecified, so theorems
quantify over it.  `data` holds the payload bytes `string(m.Data)`. -/
structure Msg where
  subject : String
  reply : String
  header : List (String × List String)
  data : String
deriving DecidableEq

/-- One observable side effect of a callback invocation:
`out s` is a write of `s` to standard output, `logLine s` a message on the
output of the `log` package, `respond subj payload` a call `m.Respond(nil)`
(`payload` is always `""`, the empty payload). -/
inductive Event where
  | out (s : String)
  | logLine (s : String)
  | respond (subject : String) (payload : String)
deriving DecidableEq

/-- `m.Reply != "" → info, _ = jsm.ParseJSMsgMetadata(m)`: the metadata is
absent when the reply subject is empty, otherwise it is whatever the (external)
parser returns; a parse error leaves it absent. -/
def msgInfoOf (parse : Msg → Option MsgInfo) (m : Msg) : Option MsgInfo :=
  if m.reply = "" then none else parse m

/-- Rendering of the `fmt` verb `%q` applied to a subject.  `%q` is behavior of
the Go `fmt` collaborator, not of this repository; it is modelled as plain
double quoting, which agrees with `fmt` on subjects without escapes. -/
def goQuote (s : String) : String :=
  "\"" ++ s ++ "\""

/-- The tail of the one-line summary: everything after the `[#%d] ` prefix of
the three `fmt.Printf` format strings of the handler. -/
def summaryTail (jsAck : Bool) (m : Msg) (info : Option MsgInfo) : String :=
  match info with
  | none =>
    if m.reply != "" then
      "Received on " ++ goQuote m.subject ++ " with reply " ++ goQuote m.reply ++ "\n"
    else
      "Received on " ++ goQuote m.subject ++ "\n"
  | some inf =>
    "Received JetStream message: consumer: " ++ inf.stream ++ " > " ++ inf.consumer ++
      " / subject: " ++ m.subject ++ " / delivered: " ++ Nat.repr inf.delivered ++
      " / consumer seq: " ++ Nat.repr inf.consumerSeq ++
      " / stream seq: " ++ Nat.repr inf.streamSeq ++
      " / ack: " ++ (if jsAck then "true" else "false") ++ "\n"

/-- The non-raw summary line (`[#%d] Received ...`), newline included. -/
def summaryLine (jsAck : Bool) (idx : Nat) (m : Msg) (info : Option MsgInfo) : String :=
  "[#" ++ Nat.repr idx ++ "] " ++ summaryTail jsAck m info

/-- The header block: `for h, vals := range m.Header { for _, val := range vals
{ fmt.Printf("%s: %s\n", h, val) } }` followed by `fmt.Println()`, emitted only
when `len(m.Header) > 0`.  One string per write to standard output. -/
def headerStrings (header : List (String × List String)) : List String :=
  if header = [] then []
  else (header.flatMap fun p => p.2.map fun v => p.1 ++ ": " ++ v ++ "\n") ++ ["\n"]

/-- `strings.HasSuffix(string(m.Data), "\n")`: whether the payload ends with a
line feed.  `"\n"` is a single one-byte character, so the byte-suffix test of
the Go source is the last-character test. -/
def hasNewlineSuffix (s : String) : Bool :=
  s.data.getLast? == some '\n'

/-- The payload block of the non-raw path: `fmt.Println(string(m.Data))`, then
`fmt.Println()` when the payload does not end in a line feed. -/
def payloadStrings (data : String) : List String :=
  [data ++ "\n"] ++ (if hasNewlineSuffix data then [] else ["\n"])

/-- Everything the handler writes to standard output for one message, one
string per write: the raw path is a single `fmt.Println(string(m.Data))`;
the non-raw path is summary line, header block, payload block. -/
def displayStrings (c : subCmd) (idx : Nat) (m : Msg) (info : Option MsgInfo) : List String :=
  if c.raw then [m.data ++ "\n"]
  else summaryLine c.jsAck idx m info :: (headerStrings m.header ++ payloadStrings m.data)

/-- The `log.Printf` format of a failed acknowledgement, rendered. -/
def ackFailLine (reply err : String) : String :=
  "Acknowledging message via subject " ++ reply ++ " failed: " ++ err ++ "\n"

/-- The deferred acknowledgement: when `c.jsAck && info != nil`, the handler
defers `m.Respond(nil)` and logs a failure; `respondErr m` is the error the
external `Respond` call returns (`none` on success). -/
def ackEvents (jsAck : Bool) (respondErr : Msg → Option String) (m : Msg)
    (info : Option MsgInfo) : List Event :=
  if jsAck && info.isSome then
    Event.respond m.reply "" ::
      (match respondErr m with
       | some e => [Event.logLine (ackFailLine m.reply e)]
       | none => [])
  else []

/-- All observable effects of one callback invocation that was given display
index `idx`: the display writes, then (the Go `defer` fires on every return
path, the raw-mode early `return` included) the acknowledgement events. -/
def handlerEvents (c : subCmd) (parse : Msg → Option MsgInfo)
    (respondErr : Msg → Option String) (idx : Nat) (m : Msg) : List Event :=
  (displayStrings c idx m (msgInfoOf parse m)).map Event.out ++
    ackEvents c.jsAck respondErr m (msgInfoOf parse m)

/-- One callback invocation: under the mutex the counter is incremented once
(`i += 1`) and the new value is the display index of this message.  Returns
the new counter value and the event trace. -/
def handler (c : subCmd) (parse : Msg → Option MsgInfo)
    (respondErr : Msg → Option String) (i : Nat) (m : Msg) : Nat × List Event :=
  (i + 1, handlerEvents c parse respondErr (i + 1) m)

/-- A run of the subscription over the messages in arrival-processing order
(the order in which invocations acquire the mutex): threads the shared counter
through the invocations and pairs each message with its display index and
event trace. -/
def runMessages (c : subCmd) (parse : Msg → Option MsgInfo)
    (respondErr : Msg → Option String) : Nat → List Msg → Nat × List (Nat × List Event)
  | i, [] => (i, [])
  | i, m :: rest =>
    let p := handler c parse respondErr i m
    let q := runMessages c parse respondErr p.1 rest
    (q.1, (p.1, p.2) :: q.2)

/-- Concatenation of a list of strings. -/
def concatStrs (l : List String) : String :=
  l.foldr (fun a b => a ++ b) ""

/-- The bytes an event trace writes to standard output. -/
def stdoutOf (evs : List Event) : String :=
  concatStrs (evs.filterMap fun e => match e with | Event.out s => some s | _ => none)

def Event.isRespond : Event → Bool
  | .respond _ _ => true
  | _ => false

def Event.isOut : Event → Bool
  | .out _ => true
  | _ => false

/-- No write to standard output occurs at or after the first `Respond` call of
the trace: acknowledgements happen only after all display output. -/
def acksAfterOutput (evs : List Event) : Bool :=
  !((evs.dropWhile fun e => !e.isRespond).any Event.isOut)

/-- One step of the command body of `subscribe`, in execution order:
the `newNatsConn` call, a `log.Printf` line, the `nc.QueueSubscribe` /
`nc.Subscribe` registration, the `nc.Flush` call, and the deferred
`nc.Close`. -/
inductive Action where
  | connectAttempt
  | logAct (line : String)
  | queueSub (subject queue : String)
  | plainSub (subject : String)
  | flushCall
  | closeConn
deriving DecidableEq

/-- What `subscribe` does after its trace: returns an error to `kingpin`
(non-zero exit) or blocks forever on `<-context.Background().Done()`. -/
inductive Outcome where
  | errored (msg : String)
  | blocked
deriving DecidableEq

/-- The external collaborators of one `subscribe` invocation: the subject
`nats.NewInbox()` would produce, and the results of `newNatsConn`,
`Subscribe`/`QueueSubscribe`, `Flush` and `LastError` (`none` = success /
no recorded error). -/
structure Env where
  newInbox : String
  connErr : Option String
  subscribeErr : Option String
  flushErr : Option String
  lastError : Option String
deriving DecidableEq

/-- The `log.Printf` calls guarded by `!c.raw || c.inbox`. -/
def logActions (c : subCmd) (subj : String) : List Action :=
  if !c.raw || c.inbox then
    if c.jsAck then
      [Action.logAct ("Subscribing on " ++ subj ++
        " with acknowledgement of JetStream messages\n")]
    else
      [Action.logAct ("Subscribing on " ++ subj ++ "\n")]
  else []

/-- The registration call: `QueueSubscribe` when a queue group is named,
`Subscribe` otherwise.  Its error return is discarded by the source. -/
def subAction (c : subCmd) (subj : String) : Action :=
  if c.queue != "" then Action.queueSub subj c.queue else Action.plainSub subj

/-- The body of `subscribe` after the subject is resolved to `subj`: connect
(returning the connection error if any), log, register, flush (error
discarded), then return `nc.LastError()` if set (running the deferred `Close`)
or block forever. -/
def subscribeBody (c : subCmd) (env : Env) (subj : String) : List Action × Outcome :=
  match env.connErr with
  | some e => ([Action.connectAttempt], Outcome.errored e)
  | none =>
    match env.lastError with
    | some e =>
      (Action.connectAttempt :: logActions c subj ++
        [subAction c subj, Action.flushCall, Action.closeConn], Outcome.errored e)
    | none =>
      (Action.connectAttempt :: logActions c subj ++
        [subAction c subj, Action.flushCall], Outcome.blocked)

/-- `(c *subCmd).subscribe`: an empty subject is replaced by a generated inbox
when the inbox flag is set, and is a configuration error (before any I/O)
otherwise; then the command body runs on the resolved subject. -/
def subscribe (c : subCmd) (env : Env) : List Action × Outcome :=
  if c.subject = "" && c.inbox then subscribeBody c env env.newInbox
  else if c.subject = "" then ([], Outcome.errored "subject is required")
  else subscribeBody c env c.subject

/-- The subject of the first registration call in a trace, if any. -/
def subjectSubscribed (acts : List Action) : Option String :=
  acts.findSome? fun a =>
    match a with
    | Action.queueSub s _ => some s
    | Action.plainSub s => some s
    | _ => none

/-- Modelled from the spec: `nats.NewInbox()` (the `generateInboxSubject()` call of the transport collaborator, not part of this repository) returns a unique,
non-empty inbox-style subject per invocation; invocations are indexed by a
natural number. -/
def newInboxSpec (n : Nat) : String :=
  "_INBOX." ++ String.mk (List.replicate n 'x')

/-- The subject resolved by the first lines of `subscribe`. -/
def resolvedSubject (c : subCmd) (env : Env) : String :=
  if c.subject = "" && c.inbox then env.newInbox else c.subject

/-! ### Helper lemmas -/

lemma concatStrs_nil : concatStrs [] = "" := rfl

lemma concatStrs_cons (a : String) (l : List String) :
    concatStrs (a :: l) = a ++ concatStrs l := rfl

lemma concatStrs_append (l1 l2 : List String) :
    concatStrs (l1 ++ l2) = concatStrs l1 ++ concatStrs l2 := by
  induction l1 with
  | nil =>
    apply String.ext
    simp [concatStrs_nil, String.data_append]
  | cons a t ih =>
    simp [concatStrs_cons, ih, String.append_assoc]

lemma stdoutOf_append (e1 e2 : List Event) :
    stdoutOf (e1 ++ e2) = stdoutOf e1 ++ stdoutOf e2 := by
  simp [stdoutOf, List.filterMap_append, concatStrs_append]

lemma stdoutOf_map_out (l : List String) :
    stdoutOf (l.map Event.out) = concatStrs l := by
  induction l with
  | nil => rfl
  | cons a t ih =>
    simpa [stdoutOf, concatStrs_cons] using congrArg (fun s => a ++ s) ih

lemma stdoutOf_ackEvents (j : Bool) (re : Msg → Option String) (m : Msg)
    (info : Option MsgInfo) : stdoutOf (ackEvents j re m info) = "" := by
  unfold ackEvents
  split
  · cases re m <;> rfl
  · rfl

lemma stdoutOf_handlerEvents (c : subCmd) (parse : Msg → Option MsgInfo)
    (re : Msg → Option String) (idx : Nat) (m : Msg) :
    stdoutOf (handlerEvents c parse re idx m) =
      concatStrs (displayStrings c idx m (msgInfoOf parse m)) := by
  rw [handlerEvents, stdoutOf_append, stdoutOf_map_out, stdoutOf_ackEvents]
  apply String.ext
  simp [String.data_append]

lemma dropWhile_append_of_all {α : Type} (p : α → Bool) (l1 l2 : List α)
    (h : ∀ e ∈ l1, p e = true) :
    List.dropWhile p (l1 ++ l2) = List.dropWhile p l2 := by
  induction l1 with
  | nil => rfl
  | cons a t ih =>
    have ha : p a = true := h a (by simp)
    simp only [List.cons_append, List.dropWhile_cons, ha, if_true]
    exact ih fun e he => h e (by simp [he])

lemma ackEvents_respond_mem (j : Bool) (re : Msg → Option String) (m : Msg)
    (info : Option MsgInfo) :
    Event.respond m.reply "" ∈ ackEvents j re m info ↔
      (j = true ∧ info.isSome = true) := by
  unfold ackEvents
  rcases hj : j <;> rcases hi : info.isSome <;> cases hre : re m <;> simp [hj, hi, hre]

lemma respond_not_mem_map_out (l : List String) (r p : String) :
    Event.respond r p ∉ l.map Event.out := by
  intro h
  rcases List.mem_map.mp h with ⟨s, _, hs⟩
  cases hs

lemma respond_mem_handlerEvents (c : subCmd) (parse : Msg → Option MsgInfo)
    (re : Msg → Option String) (idx : Nat) (m : Msg) :
    Event.respond m.reply "" ∈ handlerEvents c parse re idx m ↔
      (c.jsAck = true ∧ (msgInfoOf parse m).isSome = true) := by
  unfold handlerEvents
  rw [List.mem_append]
  have h1 := respond_not_mem_map_out (displayStrings c idx m (msgInfoOf parse m)) m.reply ""
  have h2 := ackEvents_respond_mem c.jsAck re m (msgInfoOf parse m)
  constructor
  · rintro (h | h)
    · exact absurd h h1
    · exact h2.mp h
  · intro h
    exact Or.inr (h2.mpr h)

lemma runMessages_cons (c : subCmd) (parse : Msg → Option MsgInfo)
    (re : Msg → Option String) (i : Nat) (m : Msg) (rest : List Msg) :
    runMessages c parse re i (m :: rest) =
      ((runMessages c parse re (i + 1) rest).1,
        (i + 1, handlerEvents c parse re (i + 1) m) ::
          (runMessages c parse re (i + 1) rest).2) := rfl

lemma runMessages_count (c : subCmd) (parse : Msg → Option MsgInfo)
    (re : Msg → Option String) (msgs : List Msg) :
    ∀ i, (runMessages c parse re i msgs).1 = i + msgs.length := by
  induction msgs with
  | nil => intro i; simp [runMessages]
  | cons m rest ih =>
    intro i
    rw [runMessages_cons]
    simp [ih (i + 1)]
    omega

lemma runMessages_indices (c : subCmd) (parse : Msg → Option MsgInfo)
    (re : Msg → Option String) (msgs : List Msg) :
    ∀ i, (runMessages c parse re i msgs).2.map Prod.fst =
      List.range' (i + 1) msgs.length := by
  induction msgs with
  | nil => intro i; simp [runMessages]
  | cons m rest ih =>
    intro i
    rw [runMessages_cons]
    simp only [List.length_cons, List.range'_succ, List.map_cons]
    exact congrArg (List.cons (i + 1)) (ih (i + 1))

lemma ackEvents_congr (j : Bool) (re re' : Msg → Option String) (m : Msg)
    (info : Option MsgInfo) (h : re m = re' m) :
    ackEvents j re m info = ackEvents j re' m info := by
  unfold ackEvents
  rw [h]

lemma handlerEvents_congr_respond (c : subCmd) (parse : Msg → Option MsgInfo)
    (re re' : Msg → Option String) (idx : Nat) (m : Msg) (h : re m = re' m) :
    handlerEvents c parse re idx m = handlerEvents c parse re' idx m := by
  unfold handlerEvents
  rw [ackEvents_congr c.jsAck re re' m (msgInfoOf parse m) h]

lemma runMessages_congr_respond (c : subCmd) (parse : Msg → Option MsgInfo)
    (re re' : Msg → Option String) (msgs : List Msg)
    (h : ∀ x ∈ msgs, re x = re' x) :
    ∀ i, runMessages c parse re i msgs = runMessages c parse re' i msgs := by
  induction msgs with
  | nil => intro i; rfl
  | cons m rest ih =>
    intro i
    rw [runMessages_cons, runMessages_cons]
    rw [handlerEvents_congr_respond c parse re re' (i + 1) m (h m (by simp))]
    rw [ih (fun x hx => h x (by simp [hx])) (i + 1)]

lemma subscribeBody_congr (c : subCmd) (env env' : Env) (subj : String)
    (hc : env.connErr = env'.connErr) (hl : env.lastError = env'.lastError) :
    subscribeBody c env subj = subscribeBody c env' subj := by
  unfold subscribeBody
  rw [hc, hl]

lemma subscribe_congr (c : subCmd) (env env' : Env)
    (hn : env.newInbox = env'.newInbox) (hc : env.connErr = env'.connErr)
    (hl : env.lastError = env'.lastError) :
    subscribe c env = subscribe c env' := by
  unfold subscribe
  rw [hn]
  split
  · exact subscribeBody_congr c env env' env'.newInbox hc hl
  · split
    · rfl
    · exact subscribeBody_congr c env env' c.subject hc hl

lemma subjectSubscribed_body (c : subCmd) (env : Env) (subj : String)
    (hc : env.connErr = none) :
    subjectSubscribed (subscribeBody c env subj).1 = some subj := by
  unfold subscribeBody subjectSubscribed logActions subAction
  rw [hc]
  cases env.lastError <;>
    cases h1 : (!c.raw || c.inbox) <;> cases h2 : c.jsAck <;>
      cases h3 : (c.queue != "") <;>
        simp [h1, h2, h3, List.findSome?_cons, List.findSome?_nil]

lemma subscribeBody_fst (c : subCmd) (env : Env) (subj : String)
    (hc : env.connErr = none) :
    (subscribeBody c env subj).1 =
      Action.connectAttempt :: logActions c subj ++
        [subAction c subj, Action.flushCall] ++
        (match env.lastError with
         | some _ => [Action.closeConn]
         | none => []) := by
  unfold subscribeBody
  rw [hc]
  cases env.lastError <;> simp

lemma subscribeBody_snd (c : subCmd) (env : Env) (subj : String)
    (hc : env.connErr = none) :
    (subscribeBody c env subj).2 =
      (match env.lastError with
       | some e => Outcome.errored e
       | none => Outcome.blocked) := by
  unfold subscribeBody
  rw [hc]
  cases env.lastError <;> rfl

lemma subscribe_eq_body (c : subCmd) (env : Env)
    (h : c.subject = "" ∧ c.inbox = false → False) :
    subscribe c env = subscribeBody c env (resolvedSubject c env) := by
  unfold subscribe resolvedSubject
  by_cases hs : c.subject = ""
  · have hi : c.inbox = true := by
      cases hib : c.inbox
      · exact absurd ⟨hs, hib⟩ h
      · rfl
    simp [hs, hi]
  · simp [hs]

lemma stdout_prefix_nonraw (c : subCmd) (parse : Msg → Option MsgInfo)
    (re : Msg → Option String) (idx : Nat) (m : Msg) (hr : c.raw = false) :
    stdoutOf (handlerEvents c parse re idx m) =
      "[#" ++ Nat.repr idx ++ "] " ++
        (summaryTail c.jsAck m (msgInfoOf parse m) ++
          concatStrs (headerStrings m.header ++ payloadStrings m.data)) := by
  rw [stdoutOf_handlerEvents]
  unfold displayStrings
  rw [hr]
  simp [summaryLine, concatStrs_cons, String.append_assoc]

lemma runMessages_mem (c : subCmd) (parse : Msg → Option MsgInfo)
    (re : Msg → Option String) (msgs : List Msg) :
    ∀ i p, p ∈ (runMessages c parse re i msgs).2 →
      ∃ m, p.2 = handlerEvents c parse re p.1 m := by
  induction msgs with
  | nil => intro i p hp; simp [runMessages] at hp
  | cons m rest ih =>
    intro i p hp
    rw [runMessages_cons] at hp
    rcases List.mem_cons.mp hp with h | h
    · exact ⟨m, by rw [h]⟩
    · exact ih (i + 1) p h

lemma length_newInboxSpec (n : Nat) : (newInboxSpec n).length = 7 + n := by
  rw [newInboxSpec, String.length_append]
  show 7 + (List.replicate n 'x').length = 7 + n
  rw [List.length_replicate]

/-! ### Claim theorems -/

/-- C3: an invocation with an empty subject and the inbox flag unset returns
the configuration error "subject is required" with an empty action trace: no
connection attempt, no subscription, no other effect. -/
theorem missing_subject_config_error (c : subCmd) (env : Env)
    (hs : c.subject = "") (hi : c.inbox = false) :
    subscribe c env = ([], Outcome.errored "subject is required") := by
  unfold subscribe
  simp [hs, hi]

theorem missing_subject_config_error_witness :
    subscribe ⟨"", "", false, false, false⟩ ⟨"ib", none, none, none, none⟩ =
      ([], Outcome.errored "subject is required") :=
  missing_subject_config_error ⟨"", "", false, false, false⟩
    ⟨"ib", none, none, none, none⟩ rfl rfl

/-- C9: with a non-empty subject the run is independent of the generated inbox
subject (and of every other environment field but the connection and last
errors), and the subject passed to the registration call is the supplied one,
unchanged — inbox generation happens only for an empty subject. -/
theorem explicit_subject_used_unchanged (c : subCmd) (env env' : Env)
    (hs : c.subject ≠ "")
    (hc : env.connErr = env'.connErr) (hl : env.lastError = env'.lastError) :
    subscribe c env = subscribe c env' ∧
      (env.connErr = none →
        subjectSubscribed (subscribe c env).1 = some c.subject) := by
  have hb : subscribe c env = subscribeBody c env c.subject := by
    unfold subscribe
    simp [hs]
  have hb' : subscribe c env' = subscribeBody c env' c.subject := by
    unfold subscribe
    simp [hs]
  constructor
  · rw [hb, hb']
    exact subscribeBody_congr c env env' c.subject hc hl
  · intro hcn
    rw [hb]
    exact subjectSubscribed_body c env c.subject hcn

theorem explicit_subject_used_unchanged_witness :
    subjectSubscribed
      (subscribe ⟨"orders", "", false, false, true⟩
        ⟨"generated.inbox", none, none, none, none⟩).1 = some "orders" :=
  (explicit_subject_used_unchanged ⟨"orders", "", false, false, true⟩
    ⟨"generated.inbox", none, none, none, none⟩
    ⟨"other.inbox", none, some "sub err", some "flush err", none⟩
    (by decide) rfl rfl).2 rfl

/-- C10: the run never depends on the error the registration call returns
(the source discards it), and — once connected with a resolved subject — the
command errors exactly when the recorded last error of the connection is set. -/
theorem subscription_error_discarded (c : subCmd) (env env' : Env)
    (hn : env.newInbox = env'.newInbox) (hc : env.connErr = env'.connErr)
    (hl : env.lastError = env'.lastError) :
    subscribe c env = subscribe c env' ∧
      (env.connErr = none → (c.subject = "" ∧ c.inbox = false → False) →
        ∀ e, ((subscribe c env).2 = Outcome.errored e ↔ env.lastError = some e)) := by
  constructor
  · exact subscribe_congr c env env' hn hc hl
  · intro hcn hres e
    rw [subscribe_eq_body c env hres, subscribeBody_snd c env _ hcn]
    cases hle : env.lastError <;> simp

theorem subscription_error_discarded_witness :
    subscribe ⟨"s", "", false, false, false⟩
        ⟨"ib", none, some "subscribe failed", none, none⟩ =
      subscribe ⟨"s", "", false, false, false⟩ ⟨"ib", none, none, none, none⟩ :=
  (subscription_error_discarded ⟨"s", "", false, false, false⟩
    ⟨"ib", none, some "subscribe failed", none, none⟩
    ⟨"ib", none, none, none, none⟩ rfl rfl rfl).1

/-- C7 counterexample: with a failing `Flush` but no recorded last error the
command blocks instead of returning the flush error — the claim that a flush
failure is fatal and surfaced is false on the code, whose `nc.Flush()` call
discards its error return. -/
theorem flush_error_not_fatal :
    ((⟨"ib", none, none, some "flush timeout", none⟩ : Env).flushErr =
        some "flush timeout") ∧
    Action.flushCall ∈ (subscribe ⟨"updates", "", false, false, false⟩
        ⟨"ib", none, none, some "flush timeout", none⟩).1 ∧
    (subscribe ⟨"updates", "", false, false, false⟩
        ⟨"ib", none, none, some "flush timeout", none⟩).2 = Outcome.blocked := by
  decide

/-- C7 amended: after registering the subscription the command performs the
`Flush` call and then returns an error exactly when an asynchronous
connection-level error has been recorded (`LastError`); the error return of
the flush call itself is discarded and is surfaced only through that last-error
check. -/
theorem flush_then_last_error_surfaced (c : subCmd) (env env' : Env)
    (hres : c.subject = "" ∧ c.inbox = false → False) (hc : env.connErr = none) :
    (subscribe c env).1 =
      Action.connectAttempt :: logActions c (resolvedSubject c env) ++
        [subAction c (resolvedSubject c env), Action.flushCall] ++
        (match env.lastError with
         | some _ => [Action.closeConn]
         | none => []) ∧
    (subscribe c env).2 =
      (match env.lastError with
       | some e => Outcome.errored e
       | none => Outcome.blocked) ∧
    (env.newInbox = env'.newInbox → env.connErr = env'.connErr →
      env.lastError = env'.lastError → subscribe c env = subscribe c env') := by
  refine ⟨?_, ?_, fun hn hc2 hl => subscribe_congr c env env' hn hc2 hl⟩
  · rw [subscribe_eq_body c env hres, subscribeBody_fst c env _ hc]
  · rw [subscribe_eq_body c env hres, subscribeBody_snd c env _ hc]

theorem flush_then_last_error_surfaced_witness :
    (subscribe ⟨"updates", "", false, false, false⟩
        ⟨"ib", none, none, some "flush timeout", some "async error"⟩).2 =
      Outcome.errored "async error" :=
  (flush_then_last_error_surfaced ⟨"updates", "", false, false, false⟩
    ⟨"ib", none, none, some "flush timeout", some "async error"⟩
    ⟨"ib", none, none, some "flush timeout", some "async error"⟩
    (by decide) rfl).2.1

/-- C4: with the inbox flag set and an empty subject, the generated inbox
subject is the one passed to the registration call; per the spec-modelled
collaborator `newInboxSpec`, generated subjects are non-empty and unique
(injective in the invocation index). -/
theorem inbox_subject_generated_and_used (c : subCmd) (env : Env) (n : Nat)
    (hs : c.subject = "") (hi : c.inbox = true) (hc : env.connErr = none)
    (hn : env.newInbox = newInboxSpec n) :
    subjectSubscribed (subscribe c env).1 = some (newInboxSpec n) ∧
      newInboxSpec n ≠ "" ∧ Function.Injective newInboxSpec := by
  refine ⟨?_, ?_, ?_⟩
  · unfold subscribe
    rw [← hn]
    simp only [hs, hi]
    simpa using subjectSubscribed_body c env env.newInbox hc
  · intro h
    have hlen := congrArg String.length h
    rw [length_newInboxSpec] at hlen
    simp at hlen
  · intro a b hab
    have hlen := congrArg String.length hab
    rw [length_newInboxSpec, length_newInboxSpec] at hlen
    omega

theorem inbox_subject_generated_and_used_witness :
    subjectSubscribed
      (subscribe ⟨"", "", false, false, true⟩
        ⟨newInboxSpec 5, none, none, none, none⟩).1 = some (newInboxSpec 5) :=
  (inbox_subject_generated_and_used ⟨"", "", false, false, true⟩
    ⟨newInboxSpec 5, none, none, none, none⟩ 5 rfl rfl rfl rfl).1

/-- C1: over any serialized arrival-processing order of N messages (the mutex
makes every interleaving equivalent to such an order), starting from counter
zero the indices attached to the N invocations are exactly 1..N, the counter
ends at N, and in non-raw mode the attached index is the one printed at the
head of the output for that message. -/
theorem display_indices_exactly_one_to_n (c : subCmd)
    (parse : Msg → Option MsgInfo) (re : Msg → Option String) (msgs : List Msg) :
    (runMessages c parse re 0 msgs).2.map Prod.fst = List.range' 1 msgs.length ∧
    (runMessages c parse re 0 msgs).1 = msgs.length ∧
    (∀ p ∈ (runMessages c parse re 0 msgs).2, c.raw = false →
      ∃ t, stdoutOf p.2 = "[#" ++ Nat.repr p.1 ++ "] " ++ t) := by
  refine ⟨runMessages_indices c parse re msgs 0, ?_, ?_⟩
  · rw [runMessages_count c parse re msgs 0]
    omega
  · intro p hp hr
    rcases runMessages_mem c parse re msgs 0 p hp with ⟨m, hm⟩
    exact ⟨_, by rw [hm, stdout_prefix_nonraw c parse re p.1 m hr]⟩

theorem display_indices_exactly_one_to_n_witness :
    (runMessages ⟨"s", "", false, false, false⟩ (fun _ => none) (fun _ => none) 0
        [⟨"s", "", [], "a"⟩, ⟨"s", "", [], "b"⟩, ⟨"s", "", [], "c"⟩]).2.map Prod.fst =
      List.range' 1 3 :=
  (display_indices_exactly_one_to_n ⟨"s", "", false, false, false⟩
    (fun _ => none) (fun _ => none)
    [⟨"s", "", [], "a"⟩, ⟨"s", "", [], "b"⟩, ⟨"s", "", [], "c"⟩]).1

/-- C2: the empty response to the reply-to subject occurs in the trace of a
callback exactly when the ack flag is set and delivery metadata parsed from the
reply-to subject, it occurs only after all standard-output writes of that
message, and its occurrence is unchanged by the raw flag (or any other display
configuration with the same ack flag). -/
theorem ack_sent_iff_after_display (c c' : subCmd) (parse : Msg → Option MsgInfo)
    (re : Msg → Option String) (idx : Nat) (m : Msg) (hjs : c.jsAck = c'.jsAck) :
    ((Event.respond m.reply "" ∈ handlerEvents c parse re idx m) ↔
      (c.jsAck = true ∧ (msgInfoOf parse m).isSome = true)) ∧
    acksAfterOutput (handlerEvents c parse re idx m) = true ∧
    ((Event.respond m.reply "" ∈ handlerEvents c parse re idx m) ↔
      (Event.respond m.reply "" ∈ handlerEvents c' parse re idx m)) := by
  refine ⟨respond_mem_handlerEvents c parse re idx m, ?_, ?_⟩
  · unfold acksAfterOutput handlerEvents
    rw [dropWhile_append_of_all _ _ _ ?isout]
    case isout =>
      intro e he
      rcases List.mem_map.mp he with ⟨s, _, rfl⟩
      rfl
    unfold ackEvents
    split
    · cases re m <;> rfl
    · rfl
  · rw [respond_mem_handlerEvents c parse re idx m,
      respond_mem_handlerEvents c' parse re idx m, hjs]

theorem ack_sent_iff_after_display_witness :
    Event.respond "js.ack.sub" "" ∈
      handlerEvents ⟨"s", "", true, true, false⟩
        (fun _ => some ⟨"ST", "CO", 1, 2, 3⟩) (fun _ => none) 1
        ⟨"s", "js.ack.sub", [], "p"⟩ :=
  ((ack_sent_iff_after_display ⟨"s", "", true, true, false⟩
      ⟨"s", "", false, true, false⟩ (fun _ => some ⟨"ST", "CO", 1, 2, 3⟩)
      (fun _ => none) 1 ⟨"s", "js.ack.sub", [], "p"⟩ rfl).1).mpr (by decide)

/-- C5 counterexample: in raw mode a payload that already ends in a line
terminator still gets another one appended (`fmt.Println` terminates
unconditionally), so the output is not "exactly the payload bytes with a
terminator appended only when absent". -/
theorem raw_trailing_newline_counterexample :
    stdoutOf (handlerEvents ⟨"s", "", true, false, false⟩ (fun _ => none)
        (fun _ => none) 1 ⟨"s", "", [], "x\n"⟩) = "x\n\n" ∧
      ("x\n\n" : String) ≠ "x\n" := by
  decide

/-- C5 amended: the payload is printed with one line terminator appended
unconditionally; in raw mode that is the entire output for the message, and
in non-raw mode it follows the summary and header lines and is itself followed
by one extra blank line exactly when the payload did not already end with a
line terminator. -/
theorem payload_output_behavior (c : subCmd) (parse : Msg → Option MsgInfo)
    (re : Msg → Option String) (idx : Nat) (m : Msg) :
    stdoutOf (handlerEvents c parse re idx m) =
      (if c.raw then "" else
        summaryLine c.jsAck idx m (msgInfoOf parse m) ++
          concatStrs (headerStrings m.header)) ++
      (m.data ++ "\n") ++
      (if c.raw = false ∧ hasNewlineSuffix m.data = false then "\n" else "") := by
  rw [stdoutOf_handlerEvents]
  unfold displayStrings payloadStrings
  cases hr : c.raw <;> cases he : hasNewlineSuffix m.data <;>
    simp [hr, he, concatStrs_append, concatStrs_cons, concatStrs_nil,
      String.append_assoc, String.append_empty, String.empty_append]

/-- C6 counterexample: the header block is printed in the order the Go map
iteration visits the entries, which is unspecified; visiting the same header
mapping `{"A": ["1","2"], "B": ["x"]}` in the (legitimate) order B, A yields
"B: x", "A: 1", "A: 2" — not the claimed "A: 1", "A: 2", "B: x". -/
theorem header_order_counterexample :
    ([("B", ["x"]), ("A", ["1", "2"])] : List (String × List String)).Perm
        [("A", ["1", "2"]), ("B", ["x"])] ∧
    stdoutOf (handlerEvents ⟨"s", "", false, false, false⟩ (fun _ => none)
        (fun _ => none) 1 ⟨"s", "", [("B", ["x"]), ("A", ["1", "2"])], "x\n"⟩) =
      "[#1] Received on \"s\"\nB: x\nA: 1\nA: 2\n\nx\n\n" ∧
    ("[#1] Received on \"s\"\nB: x\nA: 1\nA: 2\n\nx\n\n" : String) ≠
      "[#1] Received on \"s\"\nA: 1\nA: 2\nB: x\n\nx\n\n" := by
  decide

/-- C6 amended: for a non-raw message with a non-empty header mapping, the
output between the summary line and the payload is one "name: value" line per
header value — the values of each name in their declared order, the names in
the order the map iteration visits them, which is unspecified — followed by
one blank separator line. -/
theorem header_block_placement (c : subCmd) (parse : Msg → Option MsgInfo)
    (re : Msg → Option String) (idx : Nat) (m : Msg)
    (hr : c.raw = false) (hh : m.header ≠ []) :
    stdoutOf (handlerEvents c parse re idx m) =
      summaryLine c.jsAck idx m (msgInfoOf parse m) ++
        (concatStrs (m.header.flatMap fun p =>
          p.2.map fun v => p.1 ++ ": " ++ v ++ "\n") ++ "\n") ++
        concatStrs (payloadStrings m.data) := by
  rw [stdoutOf_handlerEvents]
  unfold displayStrings headerStrings
  rw [hr]
  simp [hh, concatStrs_append, concatStrs_cons, concatStrs_nil,
    String.append_assoc, String.append_empty, String.empty_append]

theorem header_block_placement_witness :
    stdoutOf (handlerEvents ⟨"s", "", false, false, false⟩ (fun _ => none)
        (fun _ => none) 2 ⟨"s", "", [("A", ["1", "2"]), ("B", ["x"])], "pay"⟩) =
      summaryLine false 2 ⟨"s", "", [("A", ["1", "2"]), ("B", ["x"])], "pay"⟩
          (msgInfoOf (fun _ => none) ⟨"s", "", [("A", ["1", "2"]), ("B", ["x"])], "pay"⟩) ++
        (concatStrs (([("A", ["1", "2"]), ("B", ["x"])] :
            List (String × List String)).flatMap fun p =>
          p.2.map fun v => p.1 ++ ": " ++ v ++ "\n") ++ "\n") ++
        concatStrs (payloadStrings "pay") :=
  header_block_placement ⟨"s", "", false, false, false⟩ (fun _ => none)
    (fun _ => none) 2 ⟨"s", "", [("A", ["1", "2"]), ("B", ["x"])], "pay"⟩
    rfl (by decide)

/-- C8: no per-message error escapes the callback: a metadata parse failure
leaves the message displayed as a plain message with no log output and no
response; a failed acknowledgement send adds exactly one log line naming the
reply subject and the cause after the response attempt; and the processing of
subsequent messages — which depends only on the threaded counter — is
unaffected by either. -/
theorem per_message_errors_contained (c : subCmd) (parse : Msg → Option MsgInfo)
    (re re' : Msg → Option String) (idx i : Nat) (m m' : Msg) (inf : MsgInfo)
    (e : String) (rest : List Msg)
    (hnone : msgInfoOf parse m = none)
    (hja : c.jsAck = true) (hsome : msgInfoOf parse m' = some inf)
    (hre : re m' = some e) (hagree : ∀ x ∈ rest, re x = re' x) :
    (handlerEvents c parse re idx m = (displayStrings c idx m none).map Event.out ∧
      (∀ s, Event.logLine s ∉ handlerEvents c parse re idx m) ∧
      (∀ r p, Event.respond r p ∉ handlerEvents c parse re idx m)) ∧
    handlerEvents c parse re idx m' =
      (displayStrings c idx m' (some inf)).map Event.out ++
        [Event.respond m'.reply "", Event.logLine (ackFailLine m'.reply e)] ∧
    (runMessages c parse re i (m' :: rest)).2 =
      (i + 1, handlerEvents c parse re (i + 1) m') ::
        (runMessages c parse re (i + 1) rest).2 ∧
    runMessages c parse re (i + 1) rest = runMessages c parse re' (i + 1) rest := by
  have hplain : handlerEvents c parse re idx m =
      (displayStrings c idx m none).map Event.out := by
    unfold handlerEvents ackEvents
    rw [hnone]
    simp
  refine ⟨⟨hplain, ?_, ?_⟩, ?_, ?_, ?_⟩
  · intro s hs
    rw [hplain] at hs
    rcases List.mem_map.mp hs with ⟨u, _, hu⟩
    cases hu
  · intro r p hs
    rw [hplain] at hs
    exact respond_not_mem_map_out _ r p hs
  · unfold handlerEvents ackEvents
    rw [hsome, hja, hre]
    simp
  · rw [runMessages_cons]
  · exact runMessages_congr_respond c parse re re' rest hagree (i + 1)

theorem per_message_errors_contained_witness :
    handlerEvents ⟨"s", "", false, true, false⟩
        (fun x => if x.reply = "js.ack.sub" then some ⟨"ST", "CO", 1, 2, 3⟩ else none)
        (fun _ => some "connection closed") 1 ⟨"s", "js.ack.sub", [], "d"⟩ =
      (displayStrings ⟨"s", "", false, true, false⟩ 1 ⟨"s", "js.ack.sub", [], "d"⟩
          (some ⟨"ST", "CO", 1, 2, 3⟩)).map Event.out ++
        [Event.respond "js.ack.sub" "",
          Event.logLine (ackFailLine "js.ack.sub" "connection closed")] :=
  (per_message_errors_contained ⟨"s", "", false, true, false⟩
    (fun x => if x.reply = "js.ack.sub" then some ⟨"ST", "CO", 1, 2, 3⟩ else none)
    (fun _ => some "connection closed") (fun _ => some "connection closed")
    1 0 ⟨"s", "other.reply", [], "d"⟩ ⟨"s", "js.ack.sub", [], "d"⟩
    ⟨"ST", "CO", 1, 2, 3⟩ "connection closed" []
    (by decide) rfl (by decide) rfl (by simp)).2.1

end NatsSub
